import Mathlib

/-!
Verification of the tree rewriter `update_imports.py`.

The script holds an insertion-ordered table `REPLACEMENTS` of fourteen
literal pattern/substitute pairs, walks a fixed root directory with
`os.walk`, selects files by extension and name, applies the table to each
selected file with Python `str.replace` (sequentially, one rule after the
other), writes the file back only when the buffer changed, and catches any
per-file exception, logging it and moving on.

Texts are modelled as `List Char`.  `pyReplace` models Python
`str.replace` for a non-empty pattern: it scans left to right and replaces
every non-overlapping occurrence, never rescanning the substituted text.
The walk is modelled by the list of `(root, files)` pairs that `os.walk`
yields, with root paths built by joining path components with a slash.
Read and write failures are modelled by `Except`-valued read/write
functions supplied to `update_file`.
-/

namespace UpdateImports

/-- The single-quote character (ASCII 39). -/
def sglq : Char := Char.ofNat 39

/-- The double-quote character (ASCII 34). -/
def dblq : Char := Char.ofNat 34

/-- The at-sign character (ASCII 64). -/
def atSign : Char := Char.ofNat 64

/-- The path separator (ASCII 47). -/
def pathSep : Char := Char.ofNat 47

/-- A text wrapped in single quotes, as the quoted patterns of the table
are written in `update_imports.py` lines 5-21 (odd lines). -/
def q1 (s : String) : List Char := sglq :: s.data ++ [sglq]

/-- A text wrapped in double quotes, as the quoted patterns of the table
are written in `update_imports.py` lines 6-22 (even lines). -/
def q2 (s : String) : List Char := dblq :: s.data ++ [dblq]

/-- A text preceded by a single quote with no closing quote: the
unterminated-prefix patterns of `update_imports.py` line 23. -/
def pre1 (s : String) : List Char := sglq :: s.data

/-- A text preceded by a double quote with no closing quote: the
unterminated-prefix patterns of `update_imports.py` line 24. -/
def pre2 (s : String) : List Char := dblq :: s.data

/-- The replacement table of `update_imports.py` lines 4-25, in the
dictionary's insertion order (Python dicts iterate in insertion order). -/
def REPLACEMENTS : List (List Char × List Char) := [
  (q1 "@platform/core", q1 "@/lib/core"),
  (q2 "@platform/core", q2 "@/lib/core"),
  (q1 "@platform/ui-kit", q1 "@super-platform/ui"),
  (q2 "@platform/ui-kit", q2 "@super-platform/ui"),
  (q1 "@platform/ui", q1 "@super-platform/ui-base"),
  (q2 "@platform/ui", q2 "@super-platform/ui-base"),
  (q1 "@platform/firebase", q1 "@/lib/firebase"),
  (q2 "@platform/firebase", q2 "@/lib/firebase"),
  (q1 "@platform/firebase-admin", q1 "@/lib/firebase-admin"),
  (q2 "@platform/firebase-admin", q2 "@/lib/firebase-admin"),
  (q1 "@platform/types", q1 "@/lib/types"),
  (q2 "@platform/types", q2 "@/lib/types"),
  (pre1 "@modules/", pre1 "@/modules/"),
  (pre2 "@modules/", pre2 "@/modules/")]

/-- The fixed traversal root of `update_imports.py` line 27. -/
def ROOT_DIR : List Char := "/Users/jukkritsuwannakum/Super-Platform".data

/-- Fuel-indexed body of `pyReplace`.  At each position, if the (non-empty)
pattern starts here the substitute is emitted and the scan resumes after
the matched occurrence (the substitute itself is never rescanned);
otherwise the character is copied.  One fuel unit is spent per step, and a
step consumes at least one character, so `s.length` fuel always suffices. -/
def replaceFuel (pat sub : List Char) : Nat → List Char → List Char
  | 0, s => s
  | _ + 1, [] => []
  | fuel + 1, c :: rest =>
    if pat ≠ [] ∧ pat <+: (c :: rest) then
      sub ++ replaceFuel pat sub fuel (rest.drop (pat.length - 1))
    else
      c :: replaceFuel pat sub fuel rest

/-- Python `s.replace(pat, sub)` for a non-empty `pat` (every pattern of
`REPLACEMENTS` is non-empty): leftmost, non-overlapping replacement of
every occurrence, as performed in `update_imports.py` line 36. -/
def pyReplace (s pat sub : List Char) : List Char := replaceFuel pat sub s.length s

/-- The per-file transformation of `update_imports.py` lines 34-36:
starting from the file content, apply each rule of `REPLACEMENTS` in table
order, each rule operating on the result of the previous one. -/
def applyReplacements (content : List Char) : List Char :=
  REPLACEMENTS.foldl (fun acc pr => pyReplace acc pr.1 pr.2) content

/-- The `Updated: <path>` log line of `update_imports.py` line 41. -/
def updLine (filepath : List Char) : List Char := "Updated: ".data ++ filepath

/-- The `Error reading <path>: <message>` log line of `update_imports.py`
line 43 (also emitted for write failures, since the `except` block wraps
the whole body). -/
def errLine (filepath e : List Char) : List Char :=
  "Error reading ".data ++ filepath ++ ": ".data ++ e

/-- The function `update_file` of `update_imports.py` lines 29-43.  `read`
and `write` model the filesystem: a read failure or write failure is an
`Except.error` carrying the exception message.  The result is the content
written back (if any) paired with the log lines printed. -/
def update_file (filepath : List Char)
    (read : List Char → Except (List Char) (List Char))
    (write : List Char → List Char → Except (List Char) Unit) :
    Option (List Char) × List (List Char) :=
  match read filepath with
  | .error e => (none, [errLine filepath e])
  | .ok content =>
    let new_content := applyReplacements content
    if content ≠ new_content then
      match write filepath new_content with
      | .ok _ => (some new_content, [updLine filepath])
      | .error e => (none, [errLine filepath e])
    else
      (none, [])

/-- The directory-exclusion test of `update_imports.py` line 46: Python
`'node_modules' in root or '.git' in root or '.next' in root`, a substring
test on the full root path. -/
def excludedRoot (root : List Char) : Bool :=
  decide ("node_modules".data <:+: root) || decide (".git".data <:+: root) ||
    decide (".next".data <:+: root)

/-- The extension filter of `update_imports.py` line 49: Python
`file.endswith(('.ts', '.tsx', '.js', '.jsx', '.json'))`. -/
def hasWantedExt (file : List Char) : Bool :=
  decide (".ts".data <:+ file) || decide (".tsx".data <:+ file) ||
    decide (".js".data <:+ file) || decide (".jsx".data <:+ file) ||
    decide (".json".data <:+ file)

/-- The filename exclusion of `update_imports.py` line 51: Python
`file == 'package.json' or file == 'package-lock.json'`. -/
def isSkippedName (file : List Char) : Bool :=
  decide (file = "package.json".data) || decide (file = "package-lock.json".data)

/-- A file reaches `update_file` exactly when its extension is wanted and
its name is not excluded (`update_imports.py` lines 49-53). -/
def shouldProcess (file : List Char) : Bool :=
  hasWantedExt file && !isSkippedName file

/-- Python `os.path.join(root, file)` for a root without a trailing slash
and a plain file name (`update_imports.py` line 53). -/
def joinPath (root file : List Char) : List Char := root ++ pathSep :: file

/-- The `(root, file)` pairs passed to `update_file` from one `os.walk`
entry: the whole entry is skipped when the root path is excluded
(`update_imports.py` lines 46-53). -/
def entryCalls (root : List Char) (files : List (List Char)) :
    List (List Char × List Char) :=
  if excludedRoot root then []
  else (files.filter shouldProcess).map (fun f => (root, f))

/-- All `(root, file)` pairs passed to `update_file` over the whole walk,
in traversal order (`update_imports.py` lines 45-53). -/
def updateCalls (walk : List (List Char × List (List Char))) :
    List (List Char × List Char) :=
  match walk with
  | [] => []
  | (root, files) :: rest => entryCalls root files ++ updateCalls rest

/-- The whole run over the entries yielded by `os.walk`: each scheduled
call is performed in order and paired with its outcome.  `os.walk` is
modelled by its yielded `(root, files)` list; when enumerating the root
directory fails, `os.walk` (with its default `onerror=None`) suppresses
the error and yields no entries, so the model of that failure is the empty
walk list. -/
def runOutcomes (walk : List (List Char × List (List Char)))
    (read : List Char → Except (List Char) (List Char))
    (write : List Char → List Char → Except (List Char) Unit) :
    List ((List Char × List Char) × (Option (List Char) × List (List Char))) :=
  match walk with
  | [] => []
  | (root, files) :: rest =>
    (entryCalls root files).map (fun c => (c, update_file (joinPath c.1 c.2) read write))
      ++ runOutcomes rest read write

/-- All log lines printed by the run, in order. -/
def runLog (walk : List (List Char × List (List Char)))
    (read : List Char → Except (List Char) (List Char))
    (write : List Char → List Char → Except (List Char) Unit) :
    List (List Char) :=
  ((runOutcomes walk read write).map (fun o => o.2.2)).flatten

/-! Basic lemmas about `pyReplace`. -/

/-- The fuel argument of `replaceFuel` is irrelevant once it covers the
length of the scanned text. -/
theorem replaceFuel_congr (pat sub : List Char) :
    ∀ (f g : Nat) (s : List Char), s.length ≤ f → s.length ≤ g →
      replaceFuel pat sub f s = replaceFuel pat sub g s := by
  intro f
  induction f with
  | zero =>
    intro g s hf _
    have hs : s = [] := List.eq_nil_of_length_eq_zero (Nat.le_zero.mp hf)
    subst hs
    cases g <;> rfl
  | succ f ih =>
    intro g s hf hg
    cases s with
    | nil => cases g <;> rfl
    | cons c rest =>
      cases g with
      | zero =>
        exact absurd hg (by simp)
      | succ g =>
        simp only [replaceFuel]
        by_cases h : pat ≠ [] ∧ pat <+: (c :: rest)
        · rw [if_pos h, if_pos h]
          have hlen : (rest.drop (pat.length - 1)).length ≤ rest.length := by
            rw [List.length_drop]
            omega
          have hf' : rest.length ≤ f := by
            simpa using hf
          have hg' : rest.length ≤ g := by
            simpa using hg
          rw [ih g (rest.drop (pat.length - 1)) (le_trans hlen hf') (le_trans hlen hg')]
        · rw [if_neg h, if_neg h]
          rw [ih g rest (by simpa using hf) (by simpa using hg)]

theorem pyReplace_nil (pat sub : List Char) : pyReplace [] pat sub = [] := rfl

/-- When the pattern does not start at the current position, the scan
copies the character and continues on the tail. -/
theorem pyReplace_cons_neg (pat sub : List Char) (c : Char) (rest : List Char)
    (h : ¬ pat <+: (c :: rest)) :
    pyReplace (c :: rest) pat sub = c :: pyReplace rest pat sub := by
  show replaceFuel pat sub (rest.length + 1) (c :: rest) = _
  simp only [replaceFuel]
  rw [if_neg (fun hc => h hc.2)]
  rfl

/-- When the non-empty pattern starts at the current position, the
substitute is emitted and the scan resumes after the matched occurrence. -/
theorem pyReplace_pos (pat sub s : List Char) (hne : pat ≠ []) (hp : pat <+: s) :
    pyReplace s pat sub = sub ++ pyReplace (s.drop pat.length) pat sub := by
  cases s with
  | nil =>
    have : pat = [] := List.eq_nil_of_length_eq_zero (Nat.le_zero.mp hp.length_le)
    exact absurd this hne
  | cons c rest =>
    show replaceFuel pat sub (rest.length + 1) (c :: rest) = _
    simp only [replaceFuel]
    rw [if_pos ⟨hne, hp⟩]
    have hdrop : (c :: rest).drop pat.length = rest.drop (pat.length - 1) := by
      cases pat with
      | nil => exact absurd rfl hne
      | cons p ps => simp [List.drop]
    rw [hdrop]
    congr 1
    exact replaceFuel_congr pat sub rest.length _ _
      (by rw [List.length_drop]; omega) (le_refl _)

/-- Replacing the pattern when the text begins with it: the head
occurrence is rewritten and the scan resumes on the tail, regardless of
what follows the occurrence. -/
theorem pyReplace_head_match (pat sub t : List Char) (hne : pat ≠ []) :
    pyReplace (pat ++ t) pat sub = sub ++ pyReplace t pat sub := by
  rw [pyReplace_pos pat sub _ hne ⟨t, rfl⟩, List.drop_left]

/-- A scan skips over a block none of whose characters equals the head of
the pattern. -/
theorem pyReplace_skip_of_head_ne (c0 : Char) (pr sub : List Char) :
    ∀ (u t : List Char), (∀ c ∈ u, c ≠ c0) →
      pyReplace (u ++ t) (c0 :: pr) sub = u ++ pyReplace t (c0 :: pr) sub := by
  intro u
  induction u with
  | nil => intro t _; simp
  | cons c u ih =>
    intro t hu
    have hnp : ¬ (c0 :: pr) <+: (c :: (u ++ t)) := by
      rintro ⟨r, hr⟩
      rw [List.cons_append] at hr
      injection hr with h1 _
      exact hu c (by simp) h1.symm
    rw [List.cons_append, pyReplace_cons_neg _ _ _ _ hnp,
      ih t (fun c hc => hu c (by simp [hc])), List.cons_append]

/-- If the pattern truncated to the block's length does not start the
block, the pattern does not start the block either, whatever follows. -/
theorem not_pfx_append_of_take (pat x t : List Char)
    (h : ¬ pat.take x.length <+: x) : ¬ pat <+: (x ++ t) := by
  rintro ⟨r, hr⟩
  apply h
  have htake : (pat ++ r).take x.length = (x ++ t).take x.length := by rw [hr]
  rw [List.take_left, List.take_append_eq_append_take] at htake
  exact ⟨_, htake⟩

/-- Guard on the text that follows a closing quote: the junction cannot
start a pattern occurrence if the next character is not the at-sign. -/
def headOk : List Char → Prop
  | [] => True
  | c :: _ => c ≠ atSign

/-- A pattern of shape quote-at-sign-rest cannot start at a quote that is
followed by text whose first character is not the at-sign. -/
theorem not_pfx_of_junction (q qc : Char) (pr t : List Char) (ht : headOk t) :
    ¬ (q :: atSign :: pr) <+: (qc :: t) := by
  rintro ⟨r, hr⟩
  rw [List.cons_append, List.cons_append] at hr
  injection hr with _ h2
  cases t with
  | nil => exact absurd h2 (List.cons_ne_nil _ _)
  | cons c cs =>
    injection h2 with h3 _
    exact ht h3.symm

/-- A scan skips over a quoted chunk `qo :: body ++ [qc]` when: the
pattern (of shape quote-at-sign-rest) does not start the chunk, no body
character equals the pattern's opening quote, and the text after the
chunk does not begin with an at-sign. -/
theorem pyReplace_skip_chunk (q qo qc : Char) (p2 body t sub : List Char)
    (hbody : ∀ c ∈ body, c ≠ q)
    (hdiv : ¬ ((q :: atSign :: p2).take (qo :: (body ++ [qc])).length
      <+: (qo :: (body ++ [qc]))))
    (ht : headOk t) :
    pyReplace ((qo :: (body ++ [qc])) ++ t) (q :: atSign :: p2) sub
      = (qo :: (body ++ [qc])) ++ pyReplace t (q :: atSign :: p2) sub := by
  have h0 : ¬ (q :: atSign :: p2) <+: ((qo :: (body ++ [qc])) ++ t) :=
    not_pfx_append_of_take _ _ _ hdiv
  rw [List.cons_append, pyReplace_cons_neg _ _ _ _ (by
    intro hp
    exact h0 (by rwa [List.cons_append]))]
  have hassoc : (body ++ [qc]) ++ t = body ++ ([qc] ++ t) := by
    rw [List.append_assoc]
  rw [hassoc, pyReplace_skip_of_head_ne q (atSign :: p2) sub body ([qc] ++ t) hbody]
  have hqct : ([qc] ++ t) = qc :: t := rfl
  rw [hqct, pyReplace_cons_neg _ _ _ _ (not_pfx_of_junction q qc p2 t ht)]
  simp [List.append_assoc]

/-- A scan over a text in which the pattern does not occur is the
identity. -/
theorem pyReplace_eq_self_of_no_occ (pat sub : List Char) :
    ∀ s, ¬ pat <:+: s → pyReplace s pat sub = s := by
  intro s
  induction s with
  | nil => intro _; rfl
  | cons c rest ih =>
    intro h
    have h1 : ¬ pat <+: (c :: rest) := by
      rintro ⟨r, hr⟩
      exact h ⟨[], r, by simp [hr]⟩
    have h2 : ¬ pat <:+: rest := by
      rintro ⟨s1, t1, hst⟩
      exact h ⟨c :: s1, t1, by simp [← hst]⟩
    rw [pyReplace_cons_neg _ _ _ _ h1, ih h2]

/-- Applying a rule list to a text in which no rule's pattern occurs is
the identity. -/
theorem foldl_replace_eq_self (rules : List (List Char × List Char)) :
    ∀ s, (∀ pr ∈ rules, ¬ pr.1 <:+: s) →
      rules.foldl (fun acc pr => pyReplace acc pr.1 pr.2) s = s := by
  induction rules with
  | nil => intro s _; rfl
  | cons r rs ih =>
    intro s h
    rw [List.foldl_cons, pyReplace_eq_self_of_no_occ _ _ _ (h r (by simp)),
      ih s (fun pr hpr => h pr (by simp [hpr]))]

/-! Composite texts: plain segments interleaved with quoted chunks. -/

/-- A plain text segment: contains no quote of either kind and no
at-sign.  Typical import-statement surroundings (`import x from `, `;`,
newlines) are plain. -/
def plainB (s : List Char) : Bool :=
  s.all (fun c => decide (c ≠ sglq ∧ c ≠ dblq ∧ c ≠ atSign))

theorem plainB_spec (s : List Char) (h : plainB s = true) :
    ∀ c ∈ s, c ≠ sglq ∧ c ≠ dblq ∧ c ≠ atSign :=
  fun c hc => of_decide_eq_true (List.all_eq_true.mp h c hc)

theorem ne_q_of_plain (q : Char) (hq : q = sglq ∨ q = dblq) (s : List Char)
    (hs : plainB s = true) : ∀ c ∈ s, c ≠ q := by
  intro c hc
  rcases hq with h | h
  · subst h; exact (plainB_spec s hs c hc).1
  · subst h; exact (plainB_spec s hs c hc).2.1

theorem headOk_append_plain (v r : List Char) (hv : plainB v = true)
    (hr : headOk r) : headOk (v ++ r) := by
  cases v with
  | nil => exact hr
  | cons c cs => exact (plainB_spec _ hv c (by simp)).2.2

theorem headOk_of_plain (w : List Char) (hw : plainB w = true) : headOk w := by
  cases w with
  | nil => trivial
  | cons c cs => exact (plainB_spec _ hw c (by simp)).2.2

/-- A rule whose pattern starts neither chunk leaves a composite text
`u ++ x1 ++ v ++ x2 ++ w` (plain segments around two quoted chunks)
unchanged. -/
theorem two_chunks_skip (q : Char) (p2 : List Char) (qo1 qc1 : Char) (b1 : List Char)
    (qo2 qc2 : Char) (b2 : List Char) (pat x1 x2 sub u v w : List Char)
    (hpat : pat = q :: atSign :: p2)
    (hx1 : x1 = qo1 :: (b1 ++ [qc1]))
    (hx2 : x2 = qo2 :: (b2 ++ [qc2]))
    (hq : q = sglq ∨ q = dblq)
    (hu : plainB u = true) (hv : plainB v = true) (hw : plainB w = true)
    (hb1 : ∀ c ∈ b1, c ≠ q) (hb2 : ∀ c ∈ b2, c ≠ q)
    (hd1 : ¬ (pat.take x1.length <+: x1))
    (hd2 : ¬ (pat.take x2.length <+: x2))
    (hqo2 : qo2 ≠ atSign) :
    pyReplace (u ++ x1 ++ v ++ x2 ++ w) pat sub = u ++ x1 ++ v ++ x2 ++ w := by
  subst hpat
  have hu' : ∀ c ∈ u, c ≠ q := ne_q_of_plain q hq u hu
  have hv' : ∀ c ∈ v, c ≠ q := ne_q_of_plain q hq v hv
  have hw' : ∀ c ∈ w, c ≠ q := ne_q_of_plain q hq w hw
  have ht2 : headOk (x2 ++ w) := by
    subst hx2; exact hqo2
  have ht1 : headOk (v ++ (x2 ++ w)) := headOk_append_plain v _ hv ht2
  have e : u ++ x1 ++ v ++ x2 ++ w = u ++ (x1 ++ (v ++ (x2 ++ w))) := by
    simp [List.append_assoc]
  rw [e, pyReplace_skip_of_head_ne q (atSign :: p2) sub u _ hu']
  subst hx1
  rw [pyReplace_skip_chunk q qo1 qc1 p2 b1 _ sub hb1 hd1 ht1]
  rw [pyReplace_skip_of_head_ne q (atSign :: p2) sub v _ hv']
  subst hx2
  rw [pyReplace_skip_chunk q qo2 qc2 p2 b2 _ sub hb2 hd2 (headOk_of_plain w hw)]
  have ew : pyReplace w (q :: atSign :: p2) sub = w ++ pyReplace [] (q :: atSign :: p2) sub := by
    have := pyReplace_skip_of_head_ne q (atSign :: p2) sub w [] hw'
    simpa using this
  rw [ew, pyReplace_nil]
  simp [List.append_assoc]

/-- A rule whose pattern is exactly the first chunk rewrites it and leaves
the rest of the composite text unchanged. -/
theorem two_chunks_match1 (q : Char) (p2 : List Char) (qo2 qc2 : Char) (b2 : List Char)
    (pat x2 sub u v w : List Char)
    (hpat : pat = q :: atSign :: p2)
    (hx2 : x2 = qo2 :: (b2 ++ [qc2]))
    (hq : q = sglq ∨ q = dblq)
    (hu : plainB u = true) (hv : plainB v = true) (hw : plainB w = true)
    (hb2 : ∀ c ∈ b2, c ≠ q)
    (hd2 : ¬ (pat.take x2.length <+: x2)) :
    pyReplace (u ++ pat ++ v ++ x2 ++ w) pat sub = u ++ sub ++ v ++ x2 ++ w := by
  have hu' : ∀ c ∈ u, c ≠ q := ne_q_of_plain q hq u hu
  have hv' : ∀ c ∈ v, c ≠ q := ne_q_of_plain q hq v hv
  have hw' : ∀ c ∈ w, c ≠ q := ne_q_of_plain q hq w hw
  subst hpat
  have e : u ++ (q :: atSign :: p2) ++ v ++ x2 ++ w
      = u ++ ((q :: atSign :: p2) ++ (v ++ (x2 ++ w))) := by
    simp [List.append_assoc]
  rw [e]
  rw [pyReplace_skip_of_head_ne q (atSign :: p2) sub u _ hu']
  rw [pyReplace_head_match _ _ _ (by exact List.cons_ne_nil _ _)]
  rw [pyReplace_skip_of_head_ne q (atSign :: p2) sub v _ hv']
  subst hx2
  rw [pyReplace_skip_chunk q qo2 qc2 p2 b2 _ sub hb2 hd2 (headOk_of_plain w hw)]
  have ew : pyReplace w (q :: atSign :: p2) sub = w ++ pyReplace [] (q :: atSign :: p2) sub := by
    have := pyReplace_skip_of_head_ne q (atSign :: p2) sub w [] hw'
    simpa using this
  rw [ew, pyReplace_nil]
  simp [List.append_assoc]

/-- A rule whose pattern is exactly the second chunk rewrites it and
leaves the rest of the composite text unchanged. -/
theorem two_chunks_match2 (q : Char) (p2 : List Char) (qo1 qc1 : Char) (b1 : List Char)
    (pat x1 sub u v w : List Char)
    (hpat : pat = q :: atSign :: p2)
    (hx1 : x1 = qo1 :: (b1 ++ [qc1]))
    (hq : q = sglq ∨ q = dblq)
    (hu : plainB u = true) (hv : plainB v = true) (hw : plainB w = true)
    (hb1 : ∀ c ∈ b1, c ≠ q)
    (hd1 : ¬ (pat.take x1.length <+: x1)) :
    pyReplace (u ++ x1 ++ v ++ pat ++ w) pat sub = u ++ x1 ++ v ++ sub ++ w := by
  have hu' : ∀ c ∈ u, c ≠ q := ne_q_of_plain q hq u hu
  have hv' : ∀ c ∈ v, c ≠ q := ne_q_of_plain q hq v hv
  have hw' : ∀ c ∈ w, c ≠ q := ne_q_of_plain q hq w hw
  have hqa : q ≠ atSign := by
    rcases hq with h | h <;> subst h <;> decide
  have htp : headOk (pat ++ w) := by
    subst hpat; exact hqa
  have ht1 : headOk (v ++ (pat ++ w)) := headOk_append_plain v _ hv htp
  have e : u ++ x1 ++ v ++ pat ++ w = u ++ (x1 ++ (v ++ (pat ++ w))) := by
    simp [List.append_assoc]
  rw [e]
  subst hpat
  rw [pyReplace_skip_of_head_ne q (atSign :: p2) sub u _ hu']
  subst hx1
  rw [pyReplace_skip_chunk q qo1 qc1 p2 b1 _ sub hb1 hd1 ht1]
  rw [pyReplace_skip_of_head_ne q (atSign :: p2) sub v _ hv']
  rw [pyReplace_head_match _ _ _ (by exact List.cons_ne_nil _ _)]
  have ew : pyReplace w (q :: atSign :: p2) sub = w ++ pyReplace [] (q :: atSign :: p2) sub := by
    have := pyReplace_skip_of_head_ne q (atSign :: p2) sub w [] hw'
    simpa using this
  rw [ew, pyReplace_nil]
  simp [List.append_assoc]

/-! Lemmas about the walk model. -/

/-- The root path string `os.walk` reports for the directory reached from
`base` through the directory components `comps`, joined with slashes. -/
def rootPath (base : List Char) (comps : List (List Char)) : List Char :=
  comps.foldl (fun acc c => acc ++ pathSep :: c) base

theorem ifx_rootPath_of_base (x base : List Char) :
    ∀ comps, x <:+: base → x <:+: rootPath base comps := by
  intro comps
  induction comps generalizing base with
  | nil => intro h; exact h
  | cons c cs ih =>
    intro h
    show x <:+: rootPath (base ++ pathSep :: c) cs
    exact ih (base ++ pathSep :: c) (h.trans ⟨[], pathSep :: c, by simp⟩)

/-- Every directory component appears as a substring of the full root
path. -/
theorem comp_ifx_rootPath :
    ∀ (comps : List (List Char)) (base c : List Char),
      c ∈ comps → c <:+: rootPath base comps := by
  intro comps
  induction comps with
  | nil => intro base c hc; cases hc
  | cons d ds ih =>
    intro base c hc
    rcases List.mem_cons.mp hc with h | h
    · subst h
      exact ifx_rootPath_of_base c (base ++ pathSep :: c) ds
        ⟨base ++ [pathSep], [], by simp⟩
    · exact ih (base ++ pathSep :: d) c h

theorem excludedRoot_of_ifx (root : List Char)
    (h : "node_modules".data <:+: root ∨ ".git".data <:+: root ∨
      ".next".data <:+: root) :
    excludedRoot root = true := by
  unfold excludedRoot
  rcases h with h | h | h <;> simp [h]

theorem entryCalls_eq_nil_of_excluded (root : List Char) (files : List (List Char))
    (h : excludedRoot root = true) : entryCalls root files = [] := by
  unfold entryCalls
  rw [if_pos h]

/-- Every scheduled call is processed, in order, whatever the read and
write outcomes are: no per-file failure interrupts the traversal. -/
theorem runOutcomes_map_fst
    (read : List Char → Except (List Char) (List Char))
    (write : List Char → List Char → Except (List Char) Unit) :
    ∀ walk, (runOutcomes walk read write).map Prod.fst = updateCalls walk := by
  intro walk
  induction walk with
  | nil => rfl
  | cons e rest ih =>
    cases e with
    | mk root files =>
      simp only [runOutcomes, updateCalls, List.map_append, List.map_map, ih]
      have hfst : (Prod.fst ∘ fun c : List Char × List Char =>
          (c, update_file (joinPath c.1 c.2) read write)) = id := rfl
      rw [hfst, List.map_id]

/-- Only files passing the extension and name filters are ever passed to
`update_file`. -/
theorem shouldProcess_of_mem_updateCalls :
    ∀ walk (c : List Char × List Char), c ∈ updateCalls walk →
      shouldProcess c.2 = true := by
  intro walk
  induction walk with
  | nil => intro c hc; cases hc
  | cons e rest ih =>
    intro c hc
    cases e with
    | mk root files =>
      rcases List.mem_append.mp hc with h | h
      · unfold entryCalls at h
        by_cases hex : excludedRoot root = true
        · rw [if_pos hex] at h; cases h
        · rw [if_neg hex] at h
          rcases List.mem_map.mp h with ⟨f, hf, rfl⟩
          exact (List.mem_filter.mp hf).2
      · exact ih c h

/-! Claim theorems. -/

/-- C1 counterexample: a buffer with two adjacent quoted occurrences
sharing a quote character.  The first run rewrites only the first
occurrence (its closing quote is consumed by the match), and the output
re-forms the pattern across the substitution boundary, so a second run
changes the buffer again: the per-file transformation is not idempotent
for every text buffer. -/
theorem claim1_counterexample :
    applyReplacements (applyReplacements
        (q1 "@platform/core" ++ "@platform/core".data ++ [sglq]))
      ≠ applyReplacements
        (q1 "@platform/core" ++ "@platform/core".data ++ [sglq]) := by
  decide

/-- C1 (amended): a second application of the full ordered replacement
table changes nothing provided no rule's pattern occurs as a substring of
the output of the first application.  This premise holds for ordinary
buffers whose quoted occurrences do not share quote characters, but not
for every buffer, so a second run of the rewriter is a no-op on such
files only. -/
theorem claim1_amended (content : List Char)
    (h : ∀ pr ∈ REPLACEMENTS, ¬ pr.1 <:+: applyReplacements content) :
    applyReplacements (applyReplacements content) = applyReplacements content :=
  foldl_replace_eq_self REPLACEMENTS (applyReplacements content) h

/-- C1 witness: a concrete import line satisfying the amended
hypothesis. -/
theorem claim1_witness :
    (∀ pr ∈ REPLACEMENTS, ¬ pr.1 <:+:
        applyReplacements ("import x from ".data ++ q1 "@platform/ui" ++ ";".data)) ∧
      applyReplacements (applyReplacements
          ("import x from ".data ++ q1 "@platform/ui" ++ ";".data))
        = applyReplacements ("import x from ".data ++ q1 "@platform/ui" ++ ";".data) :=
  ⟨by decide, claim1_amended _ (by decide)⟩

/-- C3: the transformed buffer is the sequential left fold of the 14
rules in table order, each rule operating on the result of the previous
one; a single rule scans left to right, copying any position where its
pattern does not start and rewriting the occurrence (then resuming after
it, so occurrences are non-overlapping) where it does; and the content
`import x from '@platform/core';` maps to `import x from '@/lib/core';`. -/
theorem claim3_sequential_composition :
    (∀ content, applyReplacements content
        = REPLACEMENTS.foldl (fun acc pr => pyReplace acc pr.1 pr.2) content) ∧
    (∀ pat sub c rest, ¬ pat <+: (c :: rest) →
        pyReplace (c :: rest) pat sub = c :: pyReplace rest pat sub) ∧
    (∀ pat sub s, pat ≠ [] → pat <+: s →
        pyReplace s pat sub = sub ++ pyReplace (s.drop pat.length) pat sub) ∧
    applyReplacements ("import x from ".data ++ q1 "@platform/core" ++ ";".data)
      = "import x from ".data ++ q1 "@/lib/core" ++ ";".data :=
  ⟨fun _ => rfl,
   fun pat sub c rest h => pyReplace_cons_neg pat sub c rest h,
   fun pat sub s h1 h2 => pyReplace_pos pat sub s h1 h2,
   by decide⟩

/-- C3 witness: concrete instances discharging the hypotheses of the
scanning equations. -/
theorem claim3_witness :
    (¬ (['a'] <+: ('b' :: ['a'])) ∧
      pyReplace ('b' :: ['a']) ['a'] ['c'] = 'b' :: pyReplace ['a'] ['a'] ['c']) ∧
    ((['a'] : List Char) ≠ [] ∧ ['a'] <+: ['a', 'b'] ∧
      pyReplace ['a', 'b'] ['a'] ['c']
        = ['c'] ++ pyReplace (['a', 'b'].drop (['a'] : List Char).length) ['a'] ['c']) :=
  ⟨⟨by decide, claim3_sequential_composition.2.1 ['a'] ['c'] 'b' ['a'] (by decide)⟩,
   ⟨by decide, by decide,
    claim3_sequential_composition.2.2.1 ['a'] ['c'] ['a', 'b'] (by decide) (by decide)⟩⟩

/-- C4: the two `@modules/` rules are unterminated prefixes, so they
rewrite a quoted occurrence beginning with the quoted `@modules/` prefix
regardless of what follows it; in particular
`import { A } from "@modules/auth/login";` maps to
`import { A } from "@/modules/auth/login";`. -/
theorem claim4_modules_prefix_rules :
    (∀ t, pyReplace (pre1 "@modules/" ++ t) (pre1 "@modules/") (pre1 "@/modules/")
        = pre1 "@/modules/" ++ pyReplace t (pre1 "@modules/") (pre1 "@/modules/")) ∧
    (∀ t, pyReplace (pre2 "@modules/" ++ t) (pre2 "@modules/") (pre2 "@/modules/")
        = pre2 "@/modules/" ++ pyReplace t (pre2 "@modules/") (pre2 "@/modules/")) ∧
    applyReplacements
        ("import \x7b A \x7d from ".data ++ q2 "@modules/auth/login" ++ ";".data)
      = "import \x7b A \x7d from ".data ++ q2 "@/modules/auth/login" ++ ";".data :=
  ⟨fun t => pyReplace_head_match _ _ t (by decide),
   fun t => pyReplace_head_match _ _ t (by decide),
   by decide⟩

/-- C5: with read and write succeeding, a file whose transformed buffer
equals its original content is not written back and produces no log line
(in particular any file containing none of the 14 patterns); conversely,
when the final buffer differs, exactly the new buffer is written and
exactly the `Updated:` line is printed. -/
theorem claim5_write_iff_changed (fp content : List Char) :
    (applyReplacements content = content →
      update_file fp (fun _ => .ok content) (fun _ _ => .ok ()) = (none, [])) ∧
    (applyReplacements content ≠ content →
      update_file fp (fun _ => .ok content) (fun _ _ => .ok ())
        = (some (applyReplacements content), [updLine fp])) ∧
    ((∀ pr ∈ REPLACEMENTS, ¬ pr.1 <:+: content) →
      update_file fp (fun _ => .ok content) (fun _ _ => .ok ()) = (none, [])) := by
  refine ⟨?_, ?_, ?_⟩
  · intro h
    simp [update_file, h]
  · intro h
    simp [update_file, Ne.symm h]
  · intro h
    have heq : applyReplacements content = content :=
      foldl_replace_eq_self REPLACEMENTS content h
    simp [update_file, heq]

/-- C5 witness: a buffer with no pattern is left alone with no log line;
a buffer with a pattern is written back with the `Updated:` line. -/
theorem claim5_witness :
    (applyReplacements "const x = 1;".data = "const x = 1;".data ∧
      update_file "/r/a.ts".data (fun _ => .ok "const x = 1;".data)
          (fun _ _ => .ok ()) = (none, [])) ∧
    (applyReplacements ("import x from ".data ++ q1 "@platform/core" ++ ";".data)
        ≠ ("import x from ".data ++ q1 "@platform/core" ++ ";".data) ∧
      update_file "/r/a.ts".data
          (fun _ => .ok ("import x from ".data ++ q1 "@platform/core" ++ ";".data))
          (fun _ _ => .ok ())
        = (some (applyReplacements
            ("import x from ".data ++ q1 "@platform/core" ++ ";".data)),
          [updLine "/r/a.ts".data])) ∧
    ((∀ pr ∈ REPLACEMENTS, ¬ pr.1 <:+: "const x = 1;".data) ∧
      update_file "/r/a.ts".data (fun _ => .ok "const x = 1;".data)
          (fun _ _ => .ok ()) = (none, [])) :=
  ⟨⟨by decide, (claim5_write_iff_changed _ _).1 (by decide)⟩,
   ⟨by decide, (claim5_write_iff_changed _ _).2.1 (by decide)⟩,
   ⟨by decide, (claim5_write_iff_changed _ _).2.2 (by decide)⟩⟩

/-- C6: a file whose name lacks the wanted extensions, and a file named
exactly `package.json` or `package-lock.json`, is never passed to
`update_file` (so never read or modified), for every walk and every
read/write behaviour. -/
theorem claim6_ineligible_never_processed
    (walk : List (List Char × List (List Char)))
    (read : List Char → Except (List Char) (List Char))
    (write : List Char → List Char → Except (List Char) Unit)
    (root file : List Char)
    (h : hasWantedExt file = false ∨ file = "package.json".data ∨
      file = "package-lock.json".data) :
    (root, file) ∉ (runOutcomes walk read write).map Prod.fst := by
  rw [runOutcomes_map_fst]
  intro hmem
  have hsp' : (hasWantedExt file && !isSkippedName file) = true :=
    shouldProcess_of_mem_updateCalls walk (root, file) hmem
  simp only [Bool.and_eq_true] at hsp'
  rcases h with h | h | h
  · rw [h] at hsp'
    exact Bool.false_ne_true hsp'.1
  · subst h
    exact absurd hsp'.2 (by decide)
  · subst h
    exact absurd hsp'.2 (by decide)

/-- C6 witness: a Markdown file and a `package.json` containing a pattern
name are never processed. -/
theorem claim6_witness :
    (hasWantedExt "README.md".data = false ∧
      ("/r".data, "README.md".data) ∉
        ((runOutcomes [("/r".data, ["README.md".data, "a.ts".data])]
          (fun _ => .ok []) (fun _ _ => .ok ())).map Prod.fst)) ∧
    (("/r".data, "package.json".data) ∉
        ((runOutcomes [("/r".data, ["package.json".data, "a.ts".data])]
          (fun _ => .ok (q2 "@platform/core")) (fun _ _ => .ok ())).map Prod.fst)) :=
  ⟨⟨by decide, claim6_ineligible_never_processed _ _ _ _ _ (Or.inl (by decide))⟩,
   claim6_ineligible_never_processed _ _ _ _ _ (Or.inr (Or.inl rfl))⟩

/-- C7: a walk entry whose directory components contain `node_modules`,
`.git` or `.next` has a root path containing that name as a substring, so
the entry is excluded before its file iteration: none of its files is
ever passed to `update_file`. -/
theorem claim7_excluded_dirs_pruned (base : List Char) (comps : List (List Char))
    (files : List (List Char))
    (h : "node_modules".data ∈ comps ∨ ".git".data ∈ comps ∨
      ".next".data ∈ comps) :
    excludedRoot (rootPath base comps) = true ∧
    entryCalls (rootPath base comps) files = [] := by
  have hex : excludedRoot (rootPath base comps) = true := by
    apply excludedRoot_of_ifx
    rcases h with h | h | h
    · exact Or.inl (comp_ifx_rootPath comps base _ h)
    · exact Or.inr (Or.inl (comp_ifx_rootPath comps base _ h))
    · exact Or.inr (Or.inr (comp_ifx_rootPath comps base _ h))
  exact ⟨hex, entryCalls_eq_nil_of_excluded _ files hex⟩

/-- C7 witness: an eligible file under a `node_modules` subdirectory of
the root contributes no calls. -/
theorem claim7_witness :
    ("node_modules".data ∈ ["src".data, "node_modules".data, "pkg".data] ∧
      excludedRoot (rootPath ROOT_DIR
        ["src".data, "node_modules".data, "pkg".data]) = true ∧
      entryCalls (rootPath ROOT_DIR ["src".data, "node_modules".data, "pkg".data])
        ["index.ts".data] = []) := by
  refine ⟨by decide, ?_⟩
  exact claim7_excluded_dirs_pruned ROOT_DIR _ _ (Or.inl (by decide))

/-- C8: any per-file failure is caught at the per-file boundary: a read
failure makes `update_file` return the single diagnostic line, which
contains the file path and the error message; a write failure (read
succeeded, the buffer changed, the write raises) is caught the same way
and yields the same diagnostic line; and every scheduled call of the
traversal is processed whatever the read and write outcomes are, so no
single file's failure aborts the run. -/
theorem claim8_per_file_error_isolation :
    (∀ fp e read write, read fp = .error e →
        update_file fp read write = (none, [errLine fp e]) ∧
        fp <:+: errLine fp e ∧ e <:+: errLine fp e) ∧
    (∀ fp e content read write, read fp = .ok content →
        applyReplacements content ≠ content →
        write fp (applyReplacements content) = .error e →
        update_file fp read write = (none, [errLine fp e]) ∧
        fp <:+: errLine fp e ∧ e <:+: errLine fp e) ∧
    (∀ walk read write,
        (runOutcomes walk read write).map Prod.fst = updateCalls walk) := by
  refine ⟨?_, ?_, ?_⟩
  · intro fp e read write h
    refine ⟨?_, ⟨"Error reading ".data, ": ".data ++ e, by simp [errLine, List.append_assoc]⟩,
      ⟨"Error reading ".data ++ fp ++ ": ".data, [],
        by simp [errLine, List.append_assoc]⟩⟩
    unfold update_file
    rw [h]
  · intro fp e content read write hr hc hw
    refine ⟨?_, ⟨"Error reading ".data, ": ".data ++ e, by simp [errLine, List.append_assoc]⟩,
      ⟨"Error reading ".data ++ fp ++ ": ".data, [],
        by simp [errLine, List.append_assoc]⟩⟩
    simp [update_file, hr, hw, Ne.symm hc]
  · intro walk read write
    exact runOutcomes_map_fst read write walk

/-- C8 witness: a failing read yields exactly the diagnostic line, and so
does a failing write on a changed buffer. -/
theorem claim8_witness :
    (((fun _ : List Char =>
        (Except.error "boom".data : Except (List Char) (List Char))) "/r/a.ts".data
      = Except.error "boom".data) ∧
    update_file "/r/a.ts".data (fun _ => .error "boom".data) (fun _ _ => .ok ())
      = (none, [errLine "/r/a.ts".data "boom".data]) ∧
    "/r/a.ts".data <:+: errLine "/r/a.ts".data "boom".data ∧
    "boom".data <:+: errLine "/r/a.ts".data "boom".data) ∧
    (((fun _ : List Char =>
        (Except.ok (q1 "@platform/core") : Except (List Char) (List Char))) "/r/b.ts".data
      = Except.ok (q1 "@platform/core")) ∧
    applyReplacements (q1 "@platform/core") ≠ q1 "@platform/core" ∧
    ((fun _ _ => (Except.error "disk full".data : Except (List Char) Unit)) "/r/b.ts".data
        (applyReplacements (q1 "@platform/core"))
      = Except.error "disk full".data) ∧
    update_file "/r/b.ts".data (fun _ => .ok (q1 "@platform/core"))
        (fun _ _ => .error "disk full".data)
      = (none, [errLine "/r/b.ts".data "disk full".data]) ∧
    "/r/b.ts".data <:+: errLine "/r/b.ts".data "disk full".data ∧
    "disk full".data <:+: errLine "/r/b.ts".data "disk full".data) :=
  ⟨⟨rfl, claim8_per_file_error_isolation.1 "/r/a.ts".data "boom".data
      (fun _ => .error "boom".data) (fun _ _ => .ok ()) rfl⟩,
   ⟨rfl, by decide, rfl,
    claim8_per_file_error_isolation.2.1 "/r/b.ts".data "disk full".data
      (q1 "@platform/core") (fun _ => .ok (q1 "@platform/core"))
      (fun _ _ => .error "disk full".data) rfl (by decide) rfl⟩⟩

/-- C9: evaluating the run at the failing input — a root directory that
cannot be enumerated.  `os.walk` with its default `onerror=None`
suppresses the scandir failure and yields no entries, so the loop body
never runs: the run performs no calls and prints no diagnostic, and the
process completes normally.  It does not abort with a clear diagnostic as
the claim states. -/
theorem claim9_missing_root_silent_noop
    (read : List Char → Except (List Char) (List Char))
    (write : List Char → List Char → Except (List Char) Unit) :
    runOutcomes [] read write = [] ∧ runLog [] read write = [] :=
  ⟨rfl, rfl⟩

/-- C10: directory exclusion is a substring test on the full root path
(definitionally), hence every walk entry one of whose directory
components merely contains `node_modules`, `.git` or `.next` as a
substring — such as `.github` or `my.nextapp` — contributes no calls. -/
theorem claim10_substring_exclusion :
    (∀ root, excludedRoot root
        = (decide ("node_modules".data <:+: root) ||
          decide (".git".data <:+: root) || decide (".next".data <:+: root))) ∧
    (∀ base comps files c, c ∈ comps →
      ("node_modules".data <:+: c ∨ ".git".data <:+: c ∨ ".next".data <:+: c) →
      entryCalls (rootPath base comps) files = []) := by
  constructor
  · intro root
    rfl
  · intro base comps files c hc h
    apply entryCalls_eq_nil_of_excluded
    apply excludedRoot_of_ifx
    have hcr : c <:+: rootPath base comps := comp_ifx_rootPath comps base c hc
    rcases h with h | h | h
    · exact Or.inl (h.trans hcr)
    · exact Or.inr (Or.inl (h.trans hcr))
    · exact Or.inr (Or.inr (h.trans hcr))

/-- C10 witness: files under `.github` and under `my.nextapp` are
skipped although neither name is in the stated exclusion set. -/
theorem claim10_witness :
    (".github".data ∈ [".github".data] ∧ ".git".data <:+: ".github".data ∧
      entryCalls (rootPath ROOT_DIR [".github".data]) ["a.ts".data] = []) ∧
    ("my.nextapp".data ∈ ["my.nextapp".data] ∧
      ".next".data <:+: "my.nextapp".data ∧
      entryCalls (rootPath ROOT_DIR ["my.nextapp".data]) ["a.ts".data] = []) :=
  ⟨⟨by decide, by decide,
    claim10_substring_exclusion.2 ROOT_DIR [".github".data] ["a.ts".data]
      ".github".data (by decide) (Or.inr (Or.inl (by decide)))⟩,
   ⟨by decide, by decide,
    claim10_substring_exclusion.2 ROOT_DIR ["my.nextapp".data] ["a.ts".data]
      "my.nextapp".data (by decide) (Or.inr (Or.inr (by decide)))⟩⟩

/-- C2: well-formed quoted input containing both `'@platform/ui'` and
`'@platform/ui-kit'` — each occurrence surrounded by plain text (no
quotes, no at-signs, e.g. separate import lines), in either order.  The
two rules fire independently: `'@platform/ui-kit'` becomes
`'@super-platform/ui'` and `'@platform/ui'` becomes
`'@super-platform/ui-base'`, with no cross-contamination, because the
closing quote in each pattern keeps the shorter pattern from matching
inside the longer occurrence. -/
theorem claim2_ui_rules_independent (u v w : List Char)
    (hu : plainB u = true) (hv : plainB v = true) (hw : plainB w = true) :
    applyReplacements (u ++ q1 "@platform/ui" ++ v ++ q1 "@platform/ui-kit" ++ w)
      = u ++ q1 "@super-platform/ui-base" ++ v ++ q1 "@super-platform/ui" ++ w ∧
    applyReplacements (u ++ q1 "@platform/ui-kit" ++ v ++ q1 "@platform/ui" ++ w)
      = u ++ q1 "@super-platform/ui" ++ v ++ q1 "@super-platform/ui-base" ++ w := by
  constructor
  · have s1 : pyReplace (u ++ q1 "@platform/ui" ++ v ++ q1 "@platform/ui-kit" ++ w)
        (q1 "@platform/core") (q1 "@/lib/core")
        = u ++ q1 "@platform/ui" ++ v ++ q1 "@platform/ui-kit" ++ w := by
      apply two_chunks_skip sglq ("platform/core".data ++ [sglq]) sglq sglq
        "@platform/ui".data sglq sglq "@platform/ui-kit".data <;>
        first | assumption | decide
    have s2 : pyReplace (u ++ q1 "@platform/ui" ++ v ++ q1 "@platform/ui-kit" ++ w)
        (q2 "@platform/core") (q2 "@/lib/core")
        = u ++ q1 "@platform/ui" ++ v ++ q1 "@platform/ui-kit" ++ w := by
      apply two_chunks_skip dblq ("platform/core".data ++ [dblq]) sglq sglq
        "@platform/ui".data sglq sglq "@platform/ui-kit".data <;>
        first | assumption | decide
    have s3 : pyReplace (u ++ q1 "@platform/ui" ++ v ++ q1 "@platform/ui-kit" ++ w)
        (q1 "@platform/ui-kit") (q1 "@super-platform/ui")
        = u ++ q1 "@platform/ui" ++ v ++ q1 "@super-platform/ui" ++ w := by
      apply two_chunks_match2 sglq ("platform/ui-kit".data ++ [sglq]) sglq sglq
        "@platform/ui".data <;>
        first | assumption | decide
    have s4 : pyReplace (u ++ q1 "@platform/ui" ++ v ++ q1 "@super-platform/ui" ++ w)
        (q2 "@platform/ui-kit") (q2 "@super-platform/ui")
        = u ++ q1 "@platform/ui" ++ v ++ q1 "@super-platform/ui" ++ w := by
      apply two_chunks_skip dblq ("platform/ui-kit".data ++ [dblq]) sglq sglq
        "@platform/ui".data sglq sglq "@super-platform/ui".data <;>
        first | assumption | decide
    have s5 : pyReplace (u ++ q1 "@platform/ui" ++ v ++ q1 "@super-platform/ui" ++ w)
        (q1 "@platform/ui") (q1 "@super-platform/ui-base")
        = u ++ q1 "@super-platform/ui-base" ++ v ++ q1 "@super-platform/ui" ++ w := by
      apply two_chunks_match1 sglq ("platform/ui".data ++ [sglq]) sglq sglq
        "@super-platform/ui".data <;>
        first | assumption | decide
    have s6 : pyReplace
        (u ++ q1 "@super-platform/ui-base" ++ v ++ q1 "@super-platform/ui" ++ w)
        (q2 "@platform/ui") (q2 "@super-platform/ui-base")
        = u ++ q1 "@super-platform/ui-base" ++ v ++ q1 "@super-platform/ui" ++ w := by
      apply two_chunks_skip dblq ("platform/ui".data ++ [dblq]) sglq sglq
        "@super-platform/ui-base".data sglq sglq "@super-platform/ui".data <;>
        first | assumption | decide
    have s7 : pyReplace
        (u ++ q1 "@super-platform/ui-base" ++ v ++ q1 "@super-platform/ui" ++ w)
        (q1 "@platform/firebase") (q1 "@/lib/firebase")
        = u ++ q1 "@super-platform/ui-base" ++ v ++ q1 "@super-platform/ui" ++ w := by
      apply two_chunks_skip sglq ("platform/firebase".data ++ [sglq]) sglq sglq
        "@super-platform/ui-base".data sglq sglq "@super-platform/ui".data <;>
        first | assumption | decide
    have s8 : pyReplace
        (u ++ q1 "@super-platform/ui-base" ++ v ++ q1 "@super-platform/ui" ++ w)
        (q2 "@platform/firebase") (q2 "@/lib/firebase")
        = u ++ q1 "@super-platform/ui-base" ++ v ++ q1 "@super-platform/ui" ++ w := by
      apply two_chunks_skip dblq ("platform/firebase".data ++ [dblq]) sglq sglq
        "@super-platform/ui-base".data sglq sglq "@super-platform/ui".data <;>
        first | assumption | decide
    have s9 : pyReplace
        (u ++ q1 "@super-platform/ui-base" ++ v ++ q1 "@super-platform/ui" ++ w)
        (q1 "@platform/firebase-admin") (q1 "@/lib/firebase-admin")
        = u ++ q1 "@super-platform/ui-base" ++ v ++ q1 "@super-platform/ui" ++ w := by
      apply two_chunks_skip sglq ("platform/firebase-admin".data ++ [sglq]) sglq sglq
        "@super-platform/ui-base".data sglq sglq "@super-platform/ui".data <;>
        first | assumption | decide
    have s10 : pyReplace
        (u ++ q1 "@super-platform/ui-base" ++ v ++ q1 "@super-platform/ui" ++ w)
        (q2 "@platform/firebase-admin") (q2 "@/lib/firebase-admin")
        = u ++ q1 "@super-platform/ui-base" ++ v ++ q1 "@super-platform/ui" ++ w := by
      apply two_chunks_skip dblq ("platform/firebase-admin".data ++ [dblq]) sglq sglq
        "@super-platform/ui-base".data sglq sglq "@super-platform/ui".data <;>
        first | assumption | decide
    have s11 : pyReplace
        (u ++ q1 "@super-platform/ui-base" ++ v ++ q1 "@super-platform/ui" ++ w)
        (q1 "@platform/types") (q1 "@/lib/types")
        = u ++ q1 "@super-platform/ui-base" ++ v ++ q1 "@super-platform/ui" ++ w := by
      apply two_chunks_skip sglq ("platform/types".data ++ [sglq]) sglq sglq
        "@super-platform/ui-base".data sglq sglq "@super-platform/ui".data <;>
        first | assumption | decide
    have s12 : pyReplace
        (u ++ q1 "@super-platform/ui-base" ++ v ++ q1 "@super-platform/ui" ++ w)
        (q2 "@platform/types") (q2 "@/lib/types")
        = u ++ q1 "@super-platform/ui-base" ++ v ++ q1 "@super-platform/ui" ++ w := by
      apply two_chunks_skip dblq ("platform/types".data ++ [dblq]) sglq sglq
        "@super-platform/ui-base".data sglq sglq "@super-platform/ui".data <;>
        first | assumption | decide
    have s13 : pyReplace
        (u ++ q1 "@super-platform/ui-base" ++ v ++ q1 "@super-platform/ui" ++ w)
        (pre1 "@modules/") (pre1 "@/modules/")
        = u ++ q1 "@super-platform/ui-base" ++ v ++ q1 "@super-platform/ui" ++ w := by
      apply two_chunks_skip sglq "modules/".data sglq sglq
        "@super-platform/ui-base".data sglq sglq "@super-platform/ui".data <;>
        first | assumption | decide
    have s14 : pyReplace
        (u ++ q1 "@super-platform/ui-base" ++ v ++ q1 "@super-platform/ui" ++ w)
        (pre2 "@modules/") (pre2 "@/modules/")
        = u ++ q1 "@super-platform/ui-base" ++ v ++ q1 "@super-platform/ui" ++ w := by
      apply two_chunks_skip dblq "modules/".data sglq sglq
        "@super-platform/ui-base".data sglq sglq "@super-platform/ui".data <;>
        first | assumption | decide
    simp only [applyReplacements, REPLACEMENTS, List.foldl_cons, List.foldl_nil]
    rw [s1, s2, s3, s4, s5, s6, s7, s8, s9, s10, s11, s12, s13, s14]
  · have s1 : pyReplace (u ++ q1 "@platform/ui-kit" ++ v ++ q1 "@platform/ui" ++ w)
        (q1 "@platform/core") (q1 "@/lib/core")
        = u ++ q1 "@platform/ui-kit" ++ v ++ q1 "@platform/ui" ++ w := by
      apply two_chunks_skip sglq ("platform/core".data ++ [sglq]) sglq sglq
        "@platform/ui-kit".data sglq sglq "@platform/ui".data <;>
        first | assumption | decide
    have s2 : pyReplace (u ++ q1 "@platform/ui-kit" ++ v ++ q1 "@platform/ui" ++ w)
        (q2 "@platform/core") (q2 "@/lib/core")
        = u ++ q1 "@platform/ui-kit" ++ v ++ q1 "@platform/ui" ++ w := by
      apply two_chunks_skip dblq ("platform/core".data ++ [dblq]) sglq sglq
        "@platform/ui-kit".data sglq sglq "@platform/ui".data <;>
        first | assumption | decide
    have s3 : pyReplace (u ++ q1 "@platform/ui-kit" ++ v ++ q1 "@platform/ui" ++ w)
        (q1 "@platform/ui-kit") (q1 "@super-platform/ui")
        = u ++ q1 "@super-platform/ui" ++ v ++ q1 "@platform/ui" ++ w := by
      apply two_chunks_match1 sglq ("platform/ui-kit".data ++ [sglq]) sglq sglq
        "@platform/ui".data <;>
        first | assumption | decide
    have s4 : pyReplace (u ++ q1 "@super-platform/ui" ++ v ++ q1 "@platform/ui" ++ w)
        (q2 "@platform/ui-kit") (q2 "@super-platform/ui")
        = u ++ q1 "@super-platform/ui" ++ v ++ q1 "@platform/ui" ++ w := by
      apply two_chunks_skip dblq ("platform/ui-kit".data ++ [dblq]) sglq sglq
        "@super-platform/ui".data sglq sglq "@platform/ui".data <;>
        first | assumption | decide
    have s5 : pyReplace (u ++ q1 "@super-platform/ui" ++ v ++ q1 "@platform/ui" ++ w)
        (q1 "@platform/ui") (q1 "@super-platform/ui-base")
        = u ++ q1 "@super-platform/ui" ++ v ++ q1 "@super-platform/ui-base" ++ w := by
      apply two_chunks_match2 sglq ("platform/ui".data ++ [sglq]) sglq sglq
        "@super-platform/ui".data <;>
        first | assumption | decide
    have s6 : pyReplace
        (u ++ q1 "@super-platform/ui" ++ v ++ q1 "@super-platform/ui-base" ++ w)
        (q2 "@platform/ui") (q2 "@super-platform/ui-base")
        = u ++ q1 "@super-platform/ui" ++ v ++ q1 "@super-platform/ui-base" ++ w := by
      apply two_chunks_skip dblq ("platform/ui".data ++ [dblq]) sglq sglq
        "@super-platform/ui".data sglq sglq "@super-platform/ui-base".data <;>
        first | assumption | decide
    have s7 : pyReplace
        (u ++ q1 "@super-platform/ui" ++ v ++ q1 "@super-platform/ui-base" ++ w)
        (q1 "@platform/firebase") (q1 "@/lib/firebase")
        = u ++ q1 "@super-platform/ui" ++ v ++ q1 "@super-platform/ui-base" ++ w := by
      apply two_chunks_skip sglq ("platform/firebase".data ++ [sglq]) sglq sglq
        "@super-platform/ui".data sglq sglq "@super-platform/ui-base".data <;>
        first | assumption | decide
    have s8 : pyReplace
        (u ++ q1 "@super-platform/ui" ++ v ++ q1 "@super-platform/ui-base" ++ w)
        (q2 "@platform/firebase") (q2 "@/lib/firebase")
        = u ++ q1 "@super-platform/ui" ++ v ++ q1 "@super-platform/ui-base" ++ w := by
      apply two_chunks_skip dblq ("platform/firebase".data ++ [dblq]) sglq sglq
        "@super-platform/ui".data sglq sglq "@super-platform/ui-base".data <;>
        first | assumption | decide
    have s9 : pyReplace
        (u ++ q1 "@super-platform/ui" ++ v ++ q1 "@super-platform/ui-base" ++ w)
        (q1 "@platform/firebase-admin") (q1 "@/lib/firebase-admin")
        = u ++ q1 "@super-platform/ui" ++ v ++ q1 "@super-platform/ui-base" ++ w := by
      apply two_chunks_skip sglq ("platform/firebase-admin".data ++ [sglq]) sglq sglq
        "@super-platform/ui".data sglq sglq "@super-platform/ui-base".data <;>
        first | assumption | decide
    have s10 : pyReplace
        (u ++ q1 "@super-platform/ui" ++ v ++ q1 "@super-platform/ui-base" ++ w)
        (q2 "@platform/firebase-admin") (q2 "@/lib/firebase-admin")
        = u ++ q1 "@super-platform/ui" ++ v ++ q1 "@super-platform/ui-base" ++ w := by
      apply two_chunks_skip dblq ("platform/firebase-admin".data ++ [dblq]) sglq sglq
        "@super-platform/ui".data sglq sglq "@super-platform/ui-base".data <;>
        first | assumption | decide
    have s11 : pyReplace
        (u ++ q1 "@super-platform/ui" ++ v ++ q1 "@super-platform/ui-base" ++ w)
        (q1 "@platform/types") (q1 "@/lib/types")
        = u ++ q1 "@super-platform/ui" ++ v ++ q1 "@super-platform/ui-base" ++ w := by
      apply two_chunks_skip sglq ("platform/types".data ++ [sglq]) sglq sglq
        "@super-platform/ui".data sglq sglq "@super-platform/ui-base".data <;>
        first | assumption | decide
    have s12 : pyReplace
        (u ++ q1 "@super-platform/ui" ++ v ++ q1 "@super-platform/ui-base" ++ w)
        (q2 "@platform/types") (q2 "@/lib/types")
        = u ++ q1 "@super-platform/ui" ++ v ++ q1 "@super-platform/ui-base" ++ w := by
      apply two_chunks_skip dblq ("platform/types".data ++ [dblq]) sglq sglq
        "@super-platform/ui".data sglq sglq "@super-platform/ui-base".data <;>
        first | assumption | decide
    have s13 : pyReplace
        (u ++ q1 "@super-platform/ui" ++ v ++ q1 "@super-platform/ui-base" ++ w)
        (pre1 "@modules/") (pre1 "@/modules/")
        = u ++ q1 "@super-platform/ui" ++ v ++ q1 "@super-platform/ui-base" ++ w := by
      apply two_chunks_skip sglq "modules/".data sglq sglq
        "@super-platform/ui".data sglq sglq "@super-platform/ui-base".data <;>
        first | assumption | decide
    have s14 : pyReplace
        (u ++ q1 "@super-platform/ui" ++ v ++ q1 "@super-platform/ui-base" ++ w)
        (pre2 "@modules/") (pre2 "@/modules/")
        = u ++ q1 "@super-platform/ui" ++ v ++ q1 "@super-platform/ui-base" ++ w := by
      apply two_chunks_skip dblq "modules/".data sglq sglq
        "@super-platform/ui".data sglq sglq "@super-platform/ui-base".data <;>
        first | assumption | decide
    simp only [applyReplacements, REPLACEMENTS, List.foldl_cons, List.foldl_nil]
    rw [s1, s2, s3, s4, s5, s6, s7, s8, s9, s10, s11, s12, s13, s14]

/-- C2 witness: two import lines, one occurrence each, in both orders. -/
theorem claim2_witness :
    plainB "import a from ".data = true ∧
    plainB ";\nimport b from ".data = true ∧ plainB ";".data = true ∧
    (applyReplacements ("import a from ".data ++ q1 "@platform/ui"
          ++ ";\nimport b from ".data ++ q1 "@platform/ui-kit" ++ ";".data)
        = "import a from ".data ++ q1 "@super-platform/ui-base"
          ++ ";\nimport b from ".data ++ q1 "@super-platform/ui" ++ ";".data ∧
      applyReplacements ("import a from ".data ++ q1 "@platform/ui-kit"
          ++ ";\nimport b from ".data ++ q1 "@platform/ui" ++ ";".data)
        = "import a from ".data ++ q1 "@super-platform/ui"
          ++ ";\nimport b from ".data ++ q1 "@super-platform/ui-base" ++ ";".data) :=
  ⟨by decide, by decide, by decide,
   claim2_ui_rules_independent _ _ _ (by decide) (by decide) (by decide)⟩

end UpdateImports
